import Mathlib

/-!
Verification of the receipt-correlation engine of the WhatsAppAgent repository.

The development shallowly embeds the Python sources under `app/`:

* `app/main.py` — payload normalization (`_looks_like_base64_image`,
  `_normalize_last_message_obj`, `extract_messages_from_payload`), the
  media-URL rewriting helper (`_rewrite_media_url_for_container`) and the
  webhook controller branches (claim branch, cache put branch);
* `app/database.py` — the receipt store operations;
* `app/encryption.py` — the encryption boundary;
* `app/utils.py` — the fuzzy matcher `find_match_in_db`.

JSON-like Python values are embedded as the inductive type `Json`
(numbers as integers; Python `dict`s as association lists in insertion
order, which is Python's iteration order).  Python exceptions are embedded
as `Except PyErr`.  External collaborators (the `json` parser, the
`fuzzywuzzy` scorer, the Fernet cipher, the network download) are
parameters of the embedded functions.
-/

/-- Embedded Python exception classes relevant to the claims. -/
inductive PyErr where
  | attributeError
  | typeError
deriving DecidableEq, Repr

/-- Embedding of the JSON-like Python values handled by the webhook
(dicts, lists, strings, numbers, booleans, `None`). -/
inductive Json where
  | null
  | bool (b : Bool)
  | num (n : Int)
  | str (s : String)
  | arr (xs : List Json)
  | obj (kvs : List (String × Json))

/-- Python truthiness (`bool(x)`) of an embedded value. -/
def Json.truthy : Json → Bool
  | .null => false
  | .bool b => b
  | .num n => n != 0
  | .str s => !s.isEmpty
  | .arr xs => !xs.isEmpty
  | .obj kvs => !kvs.isEmpty

/-- Python `a or b`: the first operand when it is truthy, otherwise the second. -/
def Json.pyOr (a b : Json) : Json :=
  if a.truthy then a else b

/-- Python `isinstance(x, str)`. -/
def Json.isStr : Json → Bool
  | .str _ => true
  | _ => false

/-- Python `isinstance(x, dict)`. -/
def Json.isObj : Json → Bool
  | .obj _ => true
  | _ => false

/-- Python `isinstance(x, list)`. -/
def Json.isArr : Json → Bool
  | .arr _ => true
  | _ => false

/-- Python `x == "lit"` for an embedded value against a string literal. -/
def Json.isStrEq (j : Json) (t : String) : Bool :=
  match j with
  | .str s => s = t
  | _ => false

/-- Python `d.get(k)` on an embedded dict body: the first binding of the key,
`None` when the key is absent. -/
def pyGet (kvs : List (String × Json)) (k : String) : Json :=
  match kvs.find? (fun p => p.1 = k) with
  | some p => p.2
  | none => .null

/-- Python `d.get(k, default)`. -/
def pyGetD (kvs : List (String × Json)) (k : String) (d : Json) : Json :=
  match kvs.find? (fun p => p.1 = k) with
  | some p => p.2
  | none => d

/-- Python `k in d` on an embedded dict body. -/
def pyHasKey (kvs : List (String × Json)) (k : String) : Bool :=
  (kvs.find? (fun p => p.1 = k)).isSome

/-- Field access `j.get(k)` when `j` may not be a dict; returns `None` on
non-dicts (used only under an `isinstance(j, dict)` guard in the source). -/
def jGet (j : Json) (k : String) : Json :=
  match j with
  | .obj kvs => pyGet kvs k
  | _ => .null

/-- Python `for x in v`: lists iterate their elements, strings their
characters, dicts their keys; other values raise `TypeError`. -/
def pyIter : Json → Except PyErr (List Json)
  | .arr xs => .ok xs
  | .str s => .ok (s.toList.map (fun c => .str (String.mk [c])))
  | .obj kvs => .ok (kvs.map (fun p => .str p.1))
  | _ => .error .typeError

mutual

/-- Structural equality of embedded values, modelling Python `==` on the
JSON fragment (dict keys compared here are `(chat_id, sender_id)` tuples). -/
def jsonBeq : Json → Json → Bool
  | .null, .null => true
  | .bool a, .bool b => a == b
  | .num a, .num b => a == b
  | .str a, .str b => a == b
  | .arr a, .arr b => jsonListBeq a b
  | .obj a, .obj b => jsonKVsBeq a b
  | _, _ => false

/-- Elementwise equality of embedded lists. -/
def jsonListBeq : List Json → List Json → Bool
  | [], [] => true
  | a :: as, b :: bs => jsonBeq a b && jsonListBeq as bs
  | _, _ => false

/-- Bindingwise equality of embedded dict bodies. -/
def jsonKVsBeq : List (String × Json) → List (String × Json) → Bool
  | [], [] => true
  | (ka, va) :: as, (kb, vb) :: bs => ka == kb && jsonBeq va vb && jsonKVsBeq as bs
  | _, _ => false

end

mutual

theorem jsonBeq_refl : ∀ a : Json, jsonBeq a a = true
  | .null => rfl
  | .bool b => by simp [jsonBeq]
  | .num n => by simp [jsonBeq]
  | .str s => by simp [jsonBeq]
  | .arr xs => by simpa [jsonBeq] using jsonListBeq_refl xs
  | .obj kvs => by simpa [jsonBeq] using jsonKVsBeq_refl kvs

theorem jsonListBeq_refl : ∀ xs : List Json, jsonListBeq xs xs = true
  | [] => rfl
  | x :: rest => by simp [jsonListBeq, jsonBeq_refl x, jsonListBeq_refl rest]

theorem jsonKVsBeq_refl : ∀ kvs : List (String × Json), jsonKVsBeq kvs kvs = true
  | [] => rfl
  | (k, v) :: rest => by simp [jsonKVsBeq, jsonBeq_refl v, jsonKVsBeq_refl rest]

end

/-- Characters stripped by Python `str.strip()` (the ASCII whitespace set;
the payloads in scope are ASCII, so wider Unicode whitespace is not modelled). -/
def isPySpace (c : Char) : Bool :=
  c == ' ' || c == '\t' || c == '\n' || c == '\r' || c == '\x0b' || c == '\x0c'

/-- Python `s.strip()`. -/
def pyStrip (s : String) : String :=
  String.mk (((s.toList.dropWhile isPySpace).reverse.dropWhile isPySpace).reverse)

/-- Characters admitted by the regular expression used in
`_looks_like_base64_image` (`[A-Za-z0-9+/=\s\r\n]`). -/
def isB64Char (c : Char) : Bool :=
  c.isAlpha || c.isDigit || c == '+' || c == '/' || c == '=' || isPySpace c

/-- Python `s.startswith(pre)` (a code-point prefix test). -/
def pyStartsWith (s pre : String) : Bool :=
  pre.toList.isPrefixOf s.toList

/-- Embedding of `_looks_like_base64_image` from `app/main.py`: empty strings
are not base64; otherwise the string is stripped and flagged when it starts
with the JPEG marker `/9j/` or is longer than 200 characters and matches the
base64-alphabet-and-whitespace regular expression. -/
def _looks_like_base64_image (s : String) : Bool :=
  if s.isEmpty then false
  else
    let t := pyStrip s
    if pyStartsWith t "/9j/" then true
    else decide (200 < t.length) && t.toList.all isB64Char

/-- First candidate-selection pass of `_normalize_last_message_obj`: the first
candidate that is a truthy string not flagged as base64 is chosen (stripped);
all other candidates are skipped. -/
def firstPassBody : List Json → String
  | [] => ""
  | .str s :: rest =>
      if !s.isEmpty && !(_looks_like_base64_image s) then pyStrip s
      else firstPassBody rest
  | _ :: rest => firstPassBody rest

/-- Fallback pass of `_normalize_last_message_obj`: the first candidate that is
a string with a truthy `strip()` is chosen (stripped). -/
def fallbackBody : List Json → String
  | [] => ""
  | .str s :: rest =>
      if !(pyStrip s).isEmpty then pyStrip s
      else fallbackBody rest
  | _ :: rest => fallbackBody rest

/-- Embedding of `_normalize_last_message_obj` from `app/main.py`: flattens a
WAHA/webjs message object, picks the best human-readable body among the
candidate text fields, resolves a media URL across the known field names and
returns the normalized dict; non-dict inputs yield the empty dict. -/
def _normalize_last_message_obj (lm : Json) : Json :=
  match lm with
  | .obj kvs =>
      let top_body := pyGet kvs "body"
      let top_from := (pyGet kvs "from").pyOr (pyGet kvs "remote")
      let top_author := (pyGet kvs "author").pyOr (pyGet kvs "participant")
      let lm_data : List (String × Json) :=
        match pyGet kvs "_data" with
        | .obj dkvs => dkvs
        | _ => kvs
      let candidates : List Json :=
        [top_body, pyGet lm_data "body", pyGet lm_data "caption",
         pyGet kvs "caption", pyGet kvs "text", pyGet lm_data "text"]
      let chosen_body : String :=
        let first := firstPassBody candidates
        if first.isEmpty then fallbackBody candidates else first
      let media := (pyGet kvs "media").pyOr ((pyGet lm_data "media").pyOr (.obj []))
      let media_url0 : Json :=
        match media with
        | .obj mkvs => (pyGet mkvs "url").pyOr ((pyGet mkvs "fileUrl").pyOr (pyGet mkvs "mmsUrl"))
        | _ => .null
      let media_url :=
        media_url0.pyOr ((pyGet lm_data "deprecatedMms3Url").pyOr
          ((pyGet lm_data "fileUrl").pyOr ((pyGet lm_data "mediaUrl").pyOr (pyGet kvs "mediaUrl"))))
      .obj
        [("body", .str chosen_body),
         ("from", top_from.pyOr ((pyGet lm_data "from").pyOr (pyGet lm_data "remote"))),
         ("author", if top_author.isStr then top_author else (pyGet lm_data "author").pyOr .null),
         ("hasMedia", .bool (((pyGet kvs "hasMedia").pyOr ((pyGet lm_data "hasMedia").pyOr media_url)).truthy)),
         ("deprecatedMms3Url", pyGet lm_data "deprecatedMms3Url"),
         ("fileUrl", media_url),
         ("_raw", .obj lm_data)]
  | _ => .obj []

mutual

/-- Fallback walk of `extract_messages_from_payload`: collect the values of
every `lastMessage` key in the payload, depth-first, dict entry before its
values, values and list elements in order. -/
def walkForLastMessage : Json → List Json
  | .obj kvs =>
      (if pyHasKey kvs "lastMessage" then [pyGet kvs "lastMessage"] else []) ++
        walkForLastMessageKVs kvs
  | .arr xs => walkForLastMessageElems xs
  | _ => []

/-- Walk the values of a dict body in order. -/
def walkForLastMessageKVs : List (String × Json) → List Json
  | [] => []
  | (_, v) :: rest => walkForLastMessage v ++ walkForLastMessageKVs rest

/-- Walk the elements of a list in order. -/
def walkForLastMessageElems : List Json → List Json
  | [] => []
  | v :: rest => walkForLastMessage v ++ walkForLastMessageElems rest

end

/-- Loop body of the `unread_count` branch of `extract_messages_from_payload`:
each item must be a dict (`item.get` raises `AttributeError` otherwise); its
`lastMessage`/`last_message`/`message` field is normalized when truthy. -/
def unreadLoop : List Json → Except PyErr (List Json)
  | [] => .ok []
  | .obj ikvs :: rest =>
      let lm := (pyGet ikvs "lastMessage").pyOr ((pyGet ikvs "last_message").pyOr (pyGet ikvs "message"))
      match unreadLoop rest with
      | .error e => .error e
      | .ok tail => if lm.truthy then .ok (_normalize_last_message_obj lm :: tail) else .ok tail
  | _ :: _ => .error .attributeError

/-- Elements of an embedded list (used under an `isinstance(x, list)` guard). -/
def pyArrElems : Json → List Json
  | .arr xs => xs
  | _ => []

/-- Body of `extract_messages_from_payload` after the `json.loads` step.  The
source calls `payload.get(...)`, which raises `AttributeError` on any non-dict
payload; the nested-event branches iterate `data` (a `TypeError` when it is
not iterable) and, for `unread_count`, call `.get` on each item. -/
def extractResolved (p : Json) : Except PyErr (List Json) :=
  match p with
  | .obj kvs =>
      if (pyGet kvs "event").isStrEq "message" then
        match pyGet kvs "payload" with
        | .obj ikvs => .ok [_normalize_last_message_obj (.obj ikvs)]
        | _ => .ok [_normalize_last_message_obj (.obj kvs)]
      else if (pyGet kvs "messages").isArr then
        .ok ((pyArrElems (pyGet kvs "messages")).filterMap
          (fun m => if m.isObj then some (_normalize_last_message_obj m) else none))
      else
        match pyGet kvs "event" with
        | .obj ekvs =>
            if (pyGet ekvs "event").isStrEq "message_create" then
              match pyIter (pyGetD ekvs "data" (.arr [])) with
              | .error e => .error e
              | .ok ds =>
                  .ok (ds.map (fun d =>
                    let normalized := _normalize_last_message_obj d
                    if !(jGet normalized "body").truthy && d.isObj then
                      _normalize_last_message_obj ((jGet d "message").pyOr ((jGet d "lastMessage").pyOr d))
                    else normalized))
            else if (pyGet ekvs "event").isStrEq "unread_count" then
              match pyIter (pyGetD ekvs "data" (.arr [])) with
              | .error e => .error e
              | .ok items => unreadLoop items
            else
              .ok ((walkForLastMessage (.obj kvs)).map _normalize_last_message_obj)
        | _ => .ok ((walkForLastMessage (.obj kvs)).map _normalize_last_message_obj)
  | _ => .error .attributeError

/-- The `json.loads` preamble of `extract_messages_from_payload`: a string
payload is replaced by its parse when parsing succeeds and left as-is
otherwise; `parse` stands for the external `json` library. -/
def resolvePayload (parse : String → Option Json) (p : Json) : Json :=
  match p with
  | .str s =>
      match parse s with
      | some j => j
      | none => p
  | _ => p

/-- Embedding of `extract_messages_from_payload` from `app/main.py`,
parameterized by the external JSON parser. -/
def extract_messages_from_payload (parse : String → Option Json) (p : Json) :
    Except PyErr (List Json) :=
  extractResolved (resolvePayload parse p)

/-- Values on which Python `for _ in v` does not raise. -/
def iterableOk : Json → Bool
  | .arr _ => true
  | .str _ => true
  | .obj _ => true
  | _ => false

/-- Payloads on which `extract_messages_from_payload` is exception-free: the
(resolved) payload is a dict and, in the nested-event shapes, the event's
`data` is iterable and — for `unread_count` — iterates to dicts only. -/
def wellFormedPayload : Json → Bool
  | .obj kvs =>
      if (pyGet kvs "event").isStrEq "message" then true
      else if (pyGet kvs "messages").isArr then true
      else
        match pyGet kvs "event" with
        | .obj ekvs =>
            if (pyGet ekvs "event").isStrEq "message_create" then
              iterableOk (pyGetD ekvs "data" (.arr []))
            else if (pyGet ekvs "event").isStrEq "unread_count" then
              match pyIter (pyGetD ekvs "data" (.arr [])) with
              | .ok items => items.all Json.isObj
              | .error _ => false
            else true
        | _ => true
  | _ => false

/-- A parsed URL as decomposed by `urllib.parse.urlparse`: the fields the
rewriting helper reads (`hostname`, already lowercased by `urlparse`, and
`port`, kept as its decimal text) together with the components it never
touches.  WAHA media URLs carry no userinfo, so the netloc is exactly
`hostname[:port]`. -/
structure PyUrl where
  scheme : String
  hostname : String
  port : Option String
  path : String
  params : String
  query : String
  fragment : String
deriving DecidableEq, Repr

/-- Embedding of `_rewrite_media_url_for_container` from `app/main.py`,
parameterized by the `WAHA_MEDIA_HOST_OVERRIDE` environment value (already
stripped; the empty string means no override).  `none` stands for an empty
or missing URL, which the source returns unchanged. -/
def _rewrite_media_url_for_container (override : String) :
    Option PyUrl → Option PyUrl
  | none => none
  | some u =>
      if u.hostname ≠ "localhost" ∧ u.hostname ≠ "127.0.0.1" then some u
      else
        let newHostPort : String × Option String :=
          if !override.isEmpty then
            if override.contains ':' then
              (override.takeWhile (fun c => c ≠ ':'),
               some ((override.dropWhile (fun c => c ≠ ':')).drop 1))
            else
              match u.port with
              | some p => (override, some p)
              | none => (override, none)
          else
            match u.port with
            | some p => ("host.docker.internal", some p)
            | none => ("host.docker.internal", none)
        some { u with hostname := newHostPort.1, port := newHostPort.2 }

/-- The external Fernet cipher of `app/encryption.py`: encryption of a byte
string, and decryption which may fail with `InvalidToken`. -/
structure Fernet where
  enc : List Nat → List Nat
  dec : List Nat → Option (List Nat)

/-- Embedding of `encrypt_bytes` from `app/encryption.py`: pass-through when
no key is configured (`cipher_suite` is `None`). -/
def encrypt_bytes (cipher_suite : Option Fernet) (data : List Nat) : List Nat :=
  match cipher_suite with
  | none => data
  | some c => c.enc data

/-- Embedding of `decrypt_bytes` from `app/encryption.py`: pass-through when
no key is configured; otherwise Fernet decryption, re-raising `InvalidToken`
as the error case. -/
def decrypt_bytes (cipher_suite : Option Fernet) (token : List Nat) :
    Except Unit (List Nat) :=
  match cipher_suite with
  | none => .ok token
  | some c =>
      match c.dec token with
      | some d => .ok d
      | none => .error ()

/-- A row of the `receipts` table of `app/database.py`. -/
structure Receipt where
  id : String
  customer_name : String
  image_path : String
  source_group : String
  timestamp : Int
  forwarded : Bool
deriving DecidableEq, Repr

/-- Embedding of `store_receipt` from `app/database.py`: insert a fresh row
with `forwarded = 0` and return its id.  The generated `uuid4` id and the
`utcnow` timestamp are inputs; SQLite appends rows in rowid (insertion)
order, embedded as list append. -/
def store_receipt (db : List Receipt) (rid : String)
    (customer_name image_path source_group : String) (now : Int) :
    List Receipt × String :=
  (db ++ [⟨rid, customer_name, image_path, source_group, now, false⟩], rid)

/-- Embedding of `get_receipt_by_id` from `app/database.py`
(`SELECT * FROM receipts WHERE id = ?`, one row fetched). -/
def get_receipt_by_id (db : List Receipt) (rid : String) : Option Receipt :=
  db.find? (fun r => r.id = rid)

/-- Embedding of `mark_receipt_forwarded` from `app/database.py`
(`UPDATE receipts SET forwarded = 1 WHERE id = ?`). -/
def mark_receipt_forwarded (db : List Receipt) (rid : String) : List Receipt :=
  db.map (fun r => if r.id = rid then { r with forwarded := true } else r)

/-- Embedding of `get_unforwarded_receipts` from `app/database.py`
(`SELECT * FROM receipts WHERE forwarded = 0`, rows in rowid order). -/
def get_unforwarded_receipts (db : List Receipt) : List Receipt :=
  db.filter (fun r => !r.forwarded)

/-- Embedding of `log_event` from `app/database.py`: append an
`(action, metadata)` row to the `events` table. -/
def log_event (events : List (String × String)) (action metadata : String) :
    List (String × String) :=
  events ++ [(action, metadata)]

/-- Modelled from the spec: `app/utils.py` imports `list_unforwarded_receipts`
from `app.database` and calls it as `list_unforwarded_receipts(limit=top_n)`,
but no definition of it exists under src/ — `app/database.py` only defines
`get_unforwarded_receipts`, which takes no limit and imposes no ordering.
Per the spec, `listUnforwarded(limit)` returns the unforwarded receipts
ordered by creation time ascending and bounded by `limit`. -/
def list_unforwarded_receipts (db : List Receipt) (limit : Nat) : List Receipt :=
  (List.insertionSort (fun a b => a.timestamp ≤ b.timestamp)
    (get_unforwarded_receipts db)).take limit

/-- Selection loop of `find_match_in_db` from `app/utils.py`: keep the best
score seen so far, updating only on a strictly greater score.  `scoreFn`
stands for the external `fuzz.token_sort_ratio`. -/
def bestLoop (scoreFn : String → String → Nat) (q : String) :
    List Receipt → Option String → Nat → Option String × Nat
  | [], best_match, best_score => (best_match, best_score)
  | r :: rest, best_match, best_score =>
      let score := scoreFn q r.customer_name
      if best_score < score then bestLoop scoreFn q rest (some r.id) score
      else bestLoop scoreFn q rest best_match best_score

/-- Embedding of `find_match_in_db` from `app/utils.py`: score the query
against the unforwarded candidate pool, return `(best_match, best_score)`
when the best score reaches the threshold and `(None, best_score)` otherwise
(source defaults: `top_n = 100`, `threshold = 60`). -/
def find_match_in_db (scoreFn : String → String → Nat) (customer_name : String)
    (db : List Receipt) (top_n threshold : Nat) : Option String × Nat :=
  let receipts := list_unforwarded_receipts db top_n
  let bb := bestLoop scoreFn customer_name receipts none 0
  if threshold ≤ bb.2 then bb else (none, bb.2)

/-- Python dict lookup `m.get(k)` on an association list, with an explicit
key-equality test. -/
def dictGet {κ α : Type} (beq : κ → κ → Bool) (m : List (κ × α)) (k : κ) :
    Option α :=
  (m.find? (fun p => beq p.1 k)).map (fun p => p.2)

/-- Python dict assignment `m[k] = v`: replace the binding in place when the
key exists, append otherwise (Python dicts preserve insertion order). -/
def dictSet {κ α : Type} (beq : κ → κ → Bool) (m : List (κ × α)) (k : κ)
    (v : α) : List (κ × α) :=
  if (m.find? (fun p => beq p.1 k)).isSome then
    m.map (fun p => if beq p.1 k then (k, v) else p)
  else m ++ [(k, v)]

/-- Python `del m[k]`: drop every binding of the key. -/
def dictRemove {κ α : Type} (beq : κ → κ → Bool) (m : List (κ × α)) (k : κ) :
    List (κ × α) :=
  m.filter (fun p => !(beq p.1 k))

/-- Equality of `(chat_id, sender_id)` cache keys: `chat_id` is a string by
the group guard of the webhook loop; `sender_id` is whatever the normalizer
put in the `author` field. -/
def cacheKeyBeq (a b : String × Json) : Bool :=
  a.1 == b.1 && jsonBeq a.2 b.2

/-- An entry of `recent_image_cache` in `app/main.py`:
`{"url": ..., "timestamp": ...}`, with time in seconds. -/
structure CacheEntry where
  url : Json
  timestamp : Int

/-- The shared mutable state touched by the webhook controller: the
module-level image cache, the receipts table, the events (audit) table, the
written image files and the print log (level, message). -/
structure St where
  cache : List ((String × Json) × CacheEntry)
  receipts : List Receipt
  events : List (String × String)
  files : List (String × List Nat)
  logs : List (String × String)

/-- `CACHE_EXPIRATION_SECONDS` from `app/main.py`. -/
def CACHE_EXPIRATION_SECONDS : Int := 120

/-- The cache lookup of the webhook claim branch (`app/main.py`, the
`if not image_to_process_url` block): a fresh entry (age at most the TTL)
is returned and deleted; an expired entry is deleted and nothing is
returned; a missing key leaves the cache unchanged.  The third component
is the debug log output of the block. -/
def webhook_cache_take (cache : List ((String × Json) × CacheEntry))
    (key : String × Json) (now : Int) :
    Option Json × List ((String × Json) × CacheEntry) × List (String × String) :=
  match dictGet cacheKeyBeq cache key with
  | some e =>
      if now - e.timestamp ≤ CACHE_EXPIRATION_SECONDS then
        (some e.url, dictRemove cacheKeyBeq cache key,
         [("DEBUG", "Found recent image in cache")])
      else
        (none, dictRemove cacheKeyBeq cache key,
         [("DEBUG", "Found cached image but it expired")])
  | none => (none, cache, [])

/-- The cache put branch of the webhook loop (`app/main.py`, the
`if media_url` block for non-claim messages): unconditionally overwrite the
entry for `(chat_id, sender_id)` with the media URL and the current time. -/
def webhook_cache_put_branch (now : Int) (chat_id : String)
    (sender_id media_url : Json) (st : St) : St :=
  { st with
      cache := dictSet cacheKeyBeq st.cache (chat_id, sender_id)
        ⟨media_url, now⟩,
      logs := st.logs ++ [("DEBUG", "Cached image")] }

/-- The claim branch of the webhook loop (`app/main.py`, the
`if customer_name` block): resolve an image from the message or from the
cache; on success download (an external effect, `dl`), encrypt, write the
encrypted file, store the receipt and audit `receipt_stored`; with no image
log a warning; any exception in the try-block is caught and logged as an
error.  `rid` is the generated uuid, `image_path` the generated file name. -/
def webhook_claim_branch (dl : Json → Except PyErr (List Nat))
    (enc : List Nat → List Nat) (rid image_path : String) (now : Int)
    (chat_id : String) (sender_id : Json) (customer_name : String)
    (media_url : Json) (st : St) : St :=
  let tk :=
    if media_url.truthy then (none, st.cache, ([] : List (String × String)))
    else webhook_cache_take st.cache (chat_id, sender_id) now
  let img : Json :=
    match tk.1 with
    | some u => u
    | none => media_url
  let st1 : St := { st with cache := tk.2.1, logs := st.logs ++ tk.2.2 }
  if img.truthy then
    match dl img with
    | .error _ =>
        { st1 with logs := st1.logs ++ [("ERROR", "Error processing recc message")] }
    | .ok data =>
        let stored := store_receipt st1.receipts rid customer_name image_path chat_id now
        { st1 with
            files := st1.files ++ [(image_path, enc data)],
            receipts := stored.1,
            events := log_event st1.events "receipt_stored" stored.2,
            logs := st1.logs ++ [("INFO", "Stored receipt")] }
  else
    { st1 with
        logs := st1.logs ++
          [("WARNING", "Received recc but no associated image found")] }

theorem dictGet_dictSet {κ α : Type} (beq : κ → κ → Bool) (m : List (κ × α))
    (k : κ) (v : α) (hrefl : beq k k = true) :
    dictGet beq (dictSet beq m k v) k = some v := by
  unfold dictGet dictSet
  by_cases h : (m.find? (fun p => beq p.1 k)).isSome
  · rw [if_pos h, List.find?_map]
    have hpf : ((fun p : κ × α => beq p.1 k) ∘ fun p : κ × α => if beq p.1 k then (k, v) else p)
        = fun p : κ × α => beq p.1 k := by
      funext p
      by_cases hp : beq p.1 k = true <;> simp [hp, hrefl]
    rw [hpf]
    obtain ⟨p0, hp0⟩ := Option.isSome_iff_exists.mp h
    have hp0true := List.find?_some hp0
    rw [hp0]
    simp [hp0true]
  · rw [if_neg h, List.find?_append]
    rw [Option.not_isSome_iff_eq_none.mp h]
    simp [List.find?, hrefl]

theorem dictGet_dictRemove {κ α : Type} (beq : κ → κ → Bool) (m : List (κ × α))
    (k : κ) :
    dictGet beq (dictRemove beq m k) k = none := by
  unfold dictGet dictRemove
  rw [List.find?_filter]
  have hnone : List.find? (fun p : κ × α => decide ((!beq p.1 k) = true ∧ beq p.1 k = true)) m
      = none := by
    rw [List.find?_eq_none]
    intro p _
    simp
  rw [hnone]
  rfl

theorem cacheKeyBeq_refl (k : String × Json) : cacheKeyBeq k k = true := by
  unfold cacheKeyBeq
  simp [jsonBeq_refl]

/-- Claim C2: after the cache-put branch stores an image at time `t0` under a
key, the claim-branch cache lookup at time `t1` deletes the entry in every
case, yields the cached media URL exactly when the age `t1 - t0` is at most
the TTL of 120 seconds and yields nothing when the age exceeds the TTL; a
second lookup after a consuming lookup yields nothing, so a cached image is
consumed at most once. -/
theorem c2_cache_take_semantics (st : St) (chat : String) (sender url : Json)
    (t0 t1 t2 : Int) :
    (webhook_cache_take (webhook_cache_put_branch t0 chat sender url st).cache
        (chat, sender) t1).1 = (if t1 - t0 ≤ 120 then some url else none)
  ∧ (webhook_cache_take (webhook_cache_put_branch t0 chat sender url st).cache
        (chat, sender) t1).2.1
      = dictRemove cacheKeyBeq
          (webhook_cache_put_branch t0 chat sender url st).cache (chat, sender)
  ∧ (webhook_cache_take
        (webhook_cache_take (webhook_cache_put_branch t0 chat sender url st).cache
          (chat, sender) t1).2.1 (chat, sender) t2).1 = none := by
  have hget : dictGet cacheKeyBeq
      (webhook_cache_put_branch t0 chat sender url st).cache (chat, sender)
      = some ⟨url, t0⟩ := by
    unfold webhook_cache_put_branch
    exact dictGet_dictSet _ _ _ _ (cacheKeyBeq_refl _)
  have hrm : dictGet cacheKeyBeq
      (dictRemove cacheKeyBeq
        (webhook_cache_put_branch t0 chat sender url st).cache (chat, sender))
      (chat, sender) = none := dictGet_dictRemove _ _ _
  unfold webhook_cache_take CACHE_EXPIRATION_SECONDS
  rw [hget]
  by_cases hage : t1 - t0 ≤ 120
  · simp only [if_pos hage]
    exact ⟨trivial, trivial, by rw [hrm]⟩
  · simp only [if_neg hage]
    exact ⟨trivial, trivial, by rw [hrm]⟩

/-- Claim C6: decrypting the encryption of any byte string returns it
unchanged, both with a configured cipher (assuming the Fernet library
round-trip contract) and with no cipher configured, in which case both
operations are the identity. -/
theorem c6_encryption_roundtrip (cipher_suite : Option Fernet)
    (hc : ∀ c, cipher_suite = some c → ∀ x, c.dec (c.enc x) = some x)
    (x : List Nat) :
    decrypt_bytes cipher_suite (encrypt_bytes cipher_suite x) = .ok x
  ∧ (cipher_suite = none →
      encrypt_bytes cipher_suite x = x ∧ decrypt_bytes cipher_suite x = .ok x) := by
  cases cipher_suite with
  | none => exact ⟨rfl, fun _ => ⟨rfl, rfl⟩⟩
  | some c =>
      refine ⟨?_, fun h => by cases h⟩
      simp [encrypt_bytes, decrypt_bytes, hc c rfl x]

/-- A concrete cipher satisfying the Fernet round-trip contract. -/
def revCipher : Fernet := ⟨fun l => l.reverse, fun l => some l.reverse⟩

theorem c6_encryption_roundtrip_witness :
    decrypt_bytes (some revCipher) (encrypt_bytes (some revCipher) [7, 7, 0]) = .ok [7, 7, 0]
  ∧ (some revCipher = none →
      encrypt_bytes (some revCipher) [7, 7, 0] = [7, 7, 0]
        ∧ decrypt_bytes (some revCipher) [7, 7, 0] = .ok [7, 7, 0]) :=
  c6_encryption_roundtrip (some revCipher)
    (fun c hc x => by cases hc; simp [revCipher]) [7, 7, 0]

/-- Claim C9: the media-URL rewriting step returns any URL whose hostname is
neither `localhost` nor `127.0.0.1` completely unchanged, returns the
empty/missing URL unchanged, and in every case preserves the scheme, path,
params, query and fragment — only the host (and possibly the port) of
localhost URLs is ever replaced. -/
theorem c9_rewrite_frame (override : String) (u : PyUrl)
    (h1 : u.hostname ≠ "localhost") (h2 : u.hostname ≠ "127.0.0.1") :
    _rewrite_media_url_for_container override (some u) = some u
  ∧ _rewrite_media_url_for_container override none = none
  ∧ (∀ v r, _rewrite_media_url_for_container override (some v) = some r →
      r.scheme = v.scheme ∧ r.path = v.path ∧ r.params = v.params ∧
        r.query = v.query ∧ r.fragment = v.fragment) := by
  refine ⟨?_, rfl, ?_⟩
  · show (if u.hostname ≠ "localhost" ∧ u.hostname ≠ "127.0.0.1" then some u else _) = some u
    rw [if_pos ⟨h1, h2⟩]
  · intro v r hr
    change (if v.hostname ≠ "localhost" ∧ v.hostname ≠ "127.0.0.1" then some v else _) = some r at hr
    by_cases hv : v.hostname ≠ "localhost" ∧ v.hostname ≠ "127.0.0.1"
    · rw [if_pos hv] at hr
      cases hr
      exact ⟨rfl, rfl, rfl, rfl, rfl⟩
    · rw [if_neg hv] at hr
      cases hr
      exact ⟨rfl, rfl, rfl, rfl, rfl⟩

theorem c9_rewrite_frame_witness :
    _rewrite_media_url_for_container "waha:3000"
        (some ⟨"http", "example.com", some "8080", "/media/x.jpg", "", "a=1", "frag"⟩)
      = some ⟨"http", "example.com", some "8080", "/media/x.jpg", "", "a=1", "frag"⟩
  ∧ _rewrite_media_url_for_container "waha:3000" none = none
  ∧ (∀ v r, _rewrite_media_url_for_container "waha:3000" (some v) = some r →
      r.scheme = v.scheme ∧ r.path = v.path ∧ r.params = v.params ∧
        r.query = v.query ∧ r.fragment = v.fragment) :=
  c9_rewrite_frame "waha:3000"
    ⟨"http", "example.com", some "8080", "/media/x.jpg", "", "a=1", "frag"⟩
    (by decide) (by decide)

/-- Counterexample to claim C10 as stated: the string consisting of two
spaces followed by `/9j/` has length at most 200 and does not start with
`/9j/`, yet the heuristic classifies it as base64 image data, because the
source strips surrounding whitespace before testing the prefix. -/
theorem c10_counterexample :
    _looks_like_base64_image "  /9j/" = true
  ∧ pyStartsWith "  /9j/" "/9j/" = false
  ∧ "  /9j/".length ≤ 200 :=
  ⟨by decide, by decide, by decide⟩

/-- Claim C10 as amended: after stripping surrounding whitespace, a nonempty
string is classified as base64 image data exactly when its stripped form
starts with `/9j/` or is strictly longer than 200 characters and consists
exclusively of base64-alphabet characters and whitespace; consequently every
string whose stripped form has length at most 200 and does not start with
`/9j/` — including short all-base64-alphabet captions — is accepted as human
text by the normalizer's filter. -/
theorem c10_base64_heuristic (s : String) :
    (_looks_like_base64_image s = true →
      pyStartsWith (pyStrip s) "/9j/" = true ∨
        (200 < (pyStrip s).length ∧ (pyStrip s).toList.all isB64Char = true))
  ∧ ((pyStrip s).length ≤ 200 → pyStartsWith (pyStrip s) "/9j/" = false →
      _looks_like_base64_image s = false) := by
  constructor
  · intro h
    unfold _looks_like_base64_image at h
    by_cases he : s.isEmpty
    · rw [if_pos he] at h
      simp at h
    · rw [if_neg he] at h
      by_cases hp : pyStartsWith (pyStrip s) "/9j/" = true
      · exact Or.inl hp
      · rw [if_neg (by simp [Bool.eq_false_iff.mpr hp])] at h
        simp only [Bool.and_eq_true, decide_eq_true_eq] at h
        exact Or.inr h
  · intro hlen hp
    unfold _looks_like_base64_image
    by_cases he : s.isEmpty
    · rw [if_pos he]
    · rw [if_neg he, if_neg (by simp [hp])]
      have hnl : ¬ (200 < (pyStrip s).length) := by omega
      simp [hnl]

theorem c10_base64_heuristic_witness :
    (pyStrip "abc+/").length ≤ 200
  ∧ pyStartsWith (pyStrip "abc+/") "/9j/" = false
  ∧ _looks_like_base64_image "abc+/" = false :=
  ⟨by decide, by decide, (c10_base64_heuristic "abc+/").2 (by decide) (by decide)⟩

theorem mark_preserves_id (rid : String) (r : Receipt) :
    (if r.id = rid then { r with forwarded := true } else r).id = r.id := by
  by_cases h : r.id = rid <;> simp [h]

theorem find?_mark_receipt_forwarded (db : List Receipt) (rid i : String) :
    (mark_receipt_forwarded db rid).find? (fun r => r.id = i)
      = (db.find? (fun r => r.id = i)).map
          (fun r => if r.id = rid then { r with forwarded := true } else r) := by
  induction db with
  | nil => rfl
  | cons a rest ih =>
      unfold mark_receipt_forwarded at ih ⊢
      simp only [List.map_cons, List.find?_cons]
      rw [mark_preserves_id rid a]
      by_cases hai : a.id = i
      · simp [hai]
      · simp [hai, ih]

/-- Claim C7: `store_receipt` only adds a receipt with `forwarded = false`;
`mark_receipt_forwarded` is idempotent and a no-op on a nonexistent id; and
neither mutating operation ever resets a forwarded receipt — a receipt found
forwarded is still found, forwarded, after either operation. -/
theorem c7_forwarded_monotonic (db : List Receipt) (rid rid2 nm pth grp : String)
    (ts : Int) (i : String)
    (hmiss : ∀ r ∈ db, r.id ≠ rid2)
    (hfwd : ∀ r, get_receipt_by_id db i = some r → r.forwarded = true) :
    (∀ r ∈ (store_receipt db rid nm pth grp ts).1, r ∈ db ∨ r.forwarded = false)
  ∧ mark_receipt_forwarded (mark_receipt_forwarded db rid) rid
      = mark_receipt_forwarded db rid
  ∧ mark_receipt_forwarded db rid2 = db
  ∧ (∀ r, get_receipt_by_id (mark_receipt_forwarded db rid) i = some r →
      r.forwarded = true)
  ∧ (∀ r, get_receipt_by_id db i = some r →
      get_receipt_by_id (store_receipt db rid nm pth grp ts).1 i = some r) := by
  refine ⟨?_, ?_, ?_, ?_, ?_⟩
  · intro r hr
    rcases List.mem_append.mp hr with h | h
    · exact Or.inl h
    · rcases List.mem_singleton.mp h with rfl
      exact Or.inr rfl
  · unfold mark_receipt_forwarded
    rw [List.map_map]
    refine List.map_congr_left ?_
    intro r _
    by_cases h : r.id = rid <;> simp [h]
  · unfold mark_receipt_forwarded
    have hid : ∀ r ∈ db, (if r.id = rid2 then { r with forwarded := true } else r) = r := by
      intro r hr
      rw [if_neg (hmiss r hr)]
    rw [List.map_congr_left hid]
    simp
  · intro r hr
    unfold get_receipt_by_id at hr
    rw [find?_mark_receipt_forwarded] at hr
    rcases hopt : db.find? (fun x : Receipt => x.id = i) with _ | r0
    · rw [hopt] at hr
      cases hr
    · rw [hopt] at hr
      have hr0 : r0.forwarded = true := hfwd r0 hopt
      have hfr : (if r0.id = rid then { r0 with forwarded := true } else r0) = r := by
        simpa using hr
      rw [← hfr]
      by_cases hx : r0.id = rid <;> simp [hx, hr0]
  · intro r hr
    unfold get_receipt_by_id at hr ⊢
    unfold store_receipt
    rw [List.find?_append, hr]
    rfl

/-- A one-row receipts table with an already-forwarded receipt. -/
def sampleDb : List Receipt :=
  [{ id := "a", customer_name := "Ann", image_path := "p", source_group := "g",
     timestamp := 0, forwarded := true }]

theorem c7_forwarded_monotonic_witness :
    (∀ r ∈ sampleDb, r.id ≠ "z")
  ∧ (∀ r, get_receipt_by_id sampleDb "a" = some r → r.forwarded = true)
  ∧ ((∀ r ∈ (store_receipt sampleDb "b" "Bob" "q" "g" 1).1,
        r ∈ sampleDb ∨ r.forwarded = false)
    ∧ mark_receipt_forwarded (mark_receipt_forwarded sampleDb "b") "b"
        = mark_receipt_forwarded sampleDb "b"
    ∧ mark_receipt_forwarded sampleDb "z" = sampleDb
    ∧ (∀ r, get_receipt_by_id (mark_receipt_forwarded sampleDb "b") "a" = some r →
        r.forwarded = true)
    ∧ (∀ r, get_receipt_by_id sampleDb "a" = some r →
        get_receipt_by_id (store_receipt sampleDb "b" "Bob" "q" "g" 1).1 "a"
          = some r)) :=
  ⟨by decide,
   fun r hr => by rw [← Option.some.inj hr],
   c7_forwarded_monotonic sampleDb "b" "z" "Bob" "q" "g" 1 "a" (by decide)
     (fun r hr => by rw [← Option.some.inj hr])⟩

theorem le_foldl_max (sc : Receipt → Nat) (l : List Receipt) (b : Nat) :
    b ≤ l.foldl (fun acc r => max acc (sc r)) b := by
  induction l generalizing b with
  | nil => simp
  | cons r rest ih =>
      exact le_trans (le_max_left b (sc r)) (ih (max b (sc r)))

theorem bestLoop_snd (scoreFn : String → String → Nat) (q : String)
    (l : List Receipt) (bm : Option String) (bs : Nat) :
    (bestLoop scoreFn q l bm bs).2
      = l.foldl (fun acc r => max acc (scoreFn q r.customer_name)) bs := by
  induction l generalizing bm bs with
  | nil => rfl
  | cons r rest ih =>
      simp only [bestLoop, List.foldl_cons]
      by_cases h : bs < scoreFn q r.customer_name
      · rw [if_pos h, ih]
        have : max bs (scoreFn q r.customer_name) = scoreFn q r.customer_name := by omega
        rw [this]
      · rw [if_neg h, ih]
        have : max bs (scoreFn q r.customer_name) = bs := by omega
        rw [this]

theorem bestLoop_fst (scoreFn : String → String → Nat) (q : String)
    (l : List Receipt) (bm : Option String) (bs : Nat) :
    (bestLoop scoreFn q l bm bs).1
      = (if bs < l.foldl (fun acc r => max acc (scoreFn q r.customer_name)) bs then
          (l.find? (fun r => scoreFn q r.customer_name
              == l.foldl (fun acc r => max acc (scoreFn q r.customer_name)) bs)).map
            (fun r => r.id)
        else bm) := by
  induction l generalizing bm bs with
  | nil => simp [bestLoop]
  | cons r rest ih =>
      have hme : rest.foldl (fun acc x => max acc (scoreFn q x.customer_name))
          (max bs (scoreFn q r.customer_name))
          = (r :: rest).foldl (fun acc x => max acc (scoreFn q x.customer_name)) bs := by
        simp [List.foldl_cons]
      have hsle : scoreFn q r.customer_name
          ≤ (r :: rest).foldl (fun acc x => max acc (scoreFn q x.customer_name)) bs := by
        rw [← hme]
        exact le_trans (le_max_right bs (scoreFn q r.customer_name))
          (le_foldl_max _ _ _)
      simp only [bestLoop]
      by_cases h : bs < scoreFn q r.customer_name
      · rw [if_pos h, ih]
        have hM : scoreFn q r.customer_name
            ≤ rest.foldl (fun acc x => max acc (scoreFn q x.customer_name))
                (scoreFn q r.customer_name) := le_foldl_max _ _ _
        have hmax : max bs (scoreFn q r.customer_name) = scoreFn q r.customer_name := by
          omega
        rw [List.foldl_cons, hmax]
        set M := rest.foldl (fun acc x => max acc (scoreFn q x.customer_name))
          (scoreFn q r.customer_name) with hMdef
        by_cases hs : scoreFn q r.customer_name < M
        · rw [if_pos hs, if_pos (by omega)]
          rw [List.find?_cons]
          have : (scoreFn q r.customer_name == M) = false := by
            simp
            omega
          rw [this]
        · have hsM : scoreFn q r.customer_name = M := by omega
          rw [if_neg hs, if_pos (by omega)]
          rw [List.find?_cons]
          have : (scoreFn q r.customer_name == M) = true := by simp [hsM]
          rw [this]
          rfl
      · rw [if_neg h, ih]
        have hsbs : scoreFn q r.customer_name ≤ bs := by omega
        have hmax : max bs (scoreFn q r.customer_name) = bs := by omega
        rw [List.foldl_cons, hmax]
        set M := rest.foldl (fun acc x => max acc (scoreFn q x.customer_name)) bs
          with hMdef
        have hbsM : bs ≤ M := le_foldl_max _ _ _
        by_cases hb : bs < M
        · rw [if_pos hb, if_pos hb]
          rw [List.find?_cons]
          have : (scoreFn q r.customer_name == M) = false := by
            simp
            omega
          rw [this]
        · rw [if_neg hb, if_neg hb]

/-- Claim C4: for every scoring function, query and pool, the matcher's
returned score is the greatest similarity score over the candidate pool (0
for an empty pool), returned even when below the acceptance threshold; the
returned candidate, when the threshold is met, is the first candidate in
pool order achieving that greatest score — so a strictly greatest score
wins, and ties keep the first-seen (earliest-created, by the pool ordering)
candidate. -/
theorem c4_matcher_selection (scoreFn : String → String → Nat) (q : String)
    (db : List Receipt) (top_n threshold : Nat) (hthr : 1 ≤ threshold) :
    (find_match_in_db scoreFn q db top_n threshold).2
      = (list_unforwarded_receipts db top_n).foldl
          (fun acc r => max acc (scoreFn q r.customer_name)) 0
  ∧ (find_match_in_db scoreFn q db top_n threshold).1
      = (if threshold ≤ (list_unforwarded_receipts db top_n).foldl
              (fun acc r => max acc (scoreFn q r.customer_name)) 0 then
          ((list_unforwarded_receipts db top_n).find?
            (fun r => scoreFn q r.customer_name
                == (list_unforwarded_receipts db top_n).foldl
                     (fun acc r => max acc (scoreFn q r.customer_name)) 0)).map
            (fun r => r.id)
        else none) := by
  have hred : find_match_in_db scoreFn q db top_n threshold
      = (if threshold
            ≤ (bestLoop scoreFn q (list_unforwarded_receipts db top_n) none 0).2 then
          bestLoop scoreFn q (list_unforwarded_receipts db top_n) none 0
        else (none, (bestLoop scoreFn q (list_unforwarded_receipts db top_n) none 0).2)) :=
    rfl
  have hsnd := bestLoop_snd scoreFn q (list_unforwarded_receipts db top_n) none 0
  have hfst := bestLoop_fst scoreFn q (list_unforwarded_receipts db top_n) none 0
  rw [hred]
  constructor
  · by_cases ht : threshold
        ≤ (bestLoop scoreFn q (list_unforwarded_receipts db top_n) none 0).2
    · rw [if_pos ht]
      exact hsnd
    · rw [if_neg ht]
      exact hsnd
  · by_cases hM : threshold
        ≤ (list_unforwarded_receipts db top_n).foldl
            (fun acc r => max acc (scoreFn q r.customer_name)) 0
    · have ht : threshold
          ≤ (bestLoop scoreFn q (list_unforwarded_receipts db top_n) none 0).2 := by
        rw [hsnd]
        exact hM
      rw [if_pos ht, if_pos hM, hfst]
      rw [if_pos (by omega)]
    · have ht : ¬ threshold
          ≤ (bestLoop scoreFn q (list_unforwarded_receipts db top_n) none 0).2 := by
        rw [hsnd]
        exact hM
      rw [if_neg ht, if_neg hM]

/-- A scoring function giving both sample candidates the same score for the
query used in the matcher witnesses (a tie, kept by the first-seen rule). -/
def sampleScore (a b : String) : Nat :=
  if a = b then 90 else 80

/-- A two-row unforwarded pool. -/
def sampleDb2 : List Receipt :=
  [{ id := "r1", customer_name := "Ann", image_path := "p1", source_group := "g",
     timestamp := 0, forwarded := false },
   { id := "r2", customer_name := "Bob", image_path := "p2", source_group := "g",
     timestamp := 1, forwarded := false }]

theorem c4_matcher_selection_witness :
    1 ≤ 60
  ∧ ((find_match_in_db sampleScore "Zed" sampleDb2 100 60).2
      = (list_unforwarded_receipts sampleDb2 100).foldl
          (fun acc r => max acc (sampleScore "Zed" r.customer_name)) 0
    ∧ (find_match_in_db sampleScore "Zed" sampleDb2 100 60).1
        = (if 60 ≤ (list_unforwarded_receipts sampleDb2 100).foldl
                (fun acc r => max acc (sampleScore "Zed" r.customer_name)) 0 then
            ((list_unforwarded_receipts sampleDb2 100).find?
              (fun r => sampleScore "Zed" r.customer_name
                  == (list_unforwarded_receipts sampleDb2 100).foldl
                       (fun acc r => max acc (sampleScore "Zed" r.customer_name)) 0)).map
              (fun r => r.id)
          else none)) :=
  ⟨by decide, c4_matcher_selection sampleScore "Zed" sampleDb2 100 60 (by decide)⟩

/-- Claim C3: the listing of unforwarded receipts is bounded by the given
limit, ordered by creation time ascending, contains only unforwarded
receipts, and is exactly the candidate pool of the fuzzy matcher — the
matcher's result depends on the store only through this bounded, ordered
list. -/
theorem c3_unforwarded_pool (scoreFn : String → String → Nat) (q : String)
    (db db2 : List Receipt) (limit top_n threshold : Nat)
    (hpool : list_unforwarded_receipts db top_n
      = list_unforwarded_receipts db2 top_n) :
    (list_unforwarded_receipts db limit).length ≤ limit
  ∧ List.Sorted (fun a b : Receipt => a.timestamp ≤ b.timestamp)
      (list_unforwarded_receipts db limit)
  ∧ (∀ r ∈ list_unforwarded_receipts db limit, r.forwarded = false)
  ∧ find_match_in_db scoreFn q db top_n threshold
      = find_match_in_db scoreFn q db2 top_n threshold := by
  refine ⟨?_, ?_, ?_, ?_⟩
  · exact List.length_take_le _ _
  · haveI h1 : IsTotal Receipt (fun a b : Receipt => a.timestamp ≤ b.timestamp) :=
      ⟨fun a b => le_total a.timestamp b.timestamp⟩
    haveI h2 : IsTrans Receipt (fun a b : Receipt => a.timestamp ≤ b.timestamp) :=
      ⟨fun a b c hab hbc => le_trans hab hbc⟩
    exact List.Pairwise.sublist (List.take_sublist _ _)
      (List.sorted_insertionSort _ _)
  · intro r hr
    have hmem : r ∈ List.insertionSort
        (fun a b : Receipt => a.timestamp ≤ b.timestamp)
        (get_unforwarded_receipts db) :=
      List.Sublist.subset (List.take_sublist _ _) hr
    have hfil : r ∈ get_unforwarded_receipts db :=
      ((List.perm_insertionSort _ _).mem_iff).mp hmem
    have := (List.mem_filter.mp hfil).2
    simpa using this
  · unfold find_match_in_db
    rw [hpool]

theorem c3_unforwarded_pool_witness :
    list_unforwarded_receipts sampleDb2 100 = list_unforwarded_receipts sampleDb2 100
  ∧ ((list_unforwarded_receipts sampleDb2 1).length ≤ 1
    ∧ List.Sorted (fun a b : Receipt => a.timestamp ≤ b.timestamp)
        (list_unforwarded_receipts sampleDb2 1)
    ∧ (∀ r ∈ list_unforwarded_receipts sampleDb2 1, r.forwarded = false)
    ∧ find_match_in_db sampleScore "Zed" sampleDb2 100 60
        = find_match_in_db sampleScore "Zed" sampleDb2 100 60) :=
  ⟨rfl, c3_unforwarded_pool sampleScore "Zed" sampleDb2 sampleDb2 1 100 60 rfl⟩

/-- The empty webhook state. -/
def emptySt : St := ⟨[], [], [], [], []⟩

/-- Counterexample to claim C8 as stated: a claim message with no attached
media and no cached image for its key leaves the `events` (audit) table
unchanged — the source only emits a warning on the print logger
(`log_print`), it does not call `log_event` — while, as the claim also says,
no receipt is created. -/
theorem c8_counterexample :
    (webhook_claim_branch (fun _ => .ok []) (fun d => d) "r1" "img.enc" 0
        "grp@g.us" Json.null "bob" Json.null emptySt).events = emptySt.events
  ∧ (webhook_claim_branch (fun _ => .ok []) (fun d => d) "r1" "img.enc" 0
        "grp@g.us" Json.null "bob" Json.null emptySt).receipts = emptySt.receipts
  ∧ (webhook_claim_branch (fun _ => .ok []) (fun d => d) "r1" "img.enc" 0
        "grp@g.us" Json.null "bob" Json.null emptySt).logs
      = emptySt.logs ++ [("WARNING", "Received recc but no associated image found")] :=
  ⟨rfl, rfl, rfl⟩

/-- Claim C8 as amended: when a claim message is detected but no image can be
resolved (no truthy media on the message and no fresh cache entry for the
key), the receipt store, the audit table and the file store are unchanged
and a warning-level line is appended to the print log. -/
theorem c8_claim_no_image (dl : Json → Except PyErr (List Nat))
    (enc : List Nat → List Nat) (rid pth : String) (now : Int) (chat : String)
    (sender : Json) (name : String) (media : Json) (st : St)
    (hmedia : media.truthy = false)
    (hcache : ∀ e, dictGet cacheKeyBeq st.cache (chat, sender) = some e →
        CACHE_EXPIRATION_SECONDS < now - e.timestamp) :
    (webhook_claim_branch dl enc rid pth now chat sender name media st).receipts
        = st.receipts
  ∧ (webhook_claim_branch dl enc rid pth now chat sender name media st).events
      = st.events
  ∧ (webhook_claim_branch dl enc rid pth now chat sender name media st).files
      = st.files
  ∧ ∃ dbg : List (String × String),
      (webhook_claim_branch dl enc rid pth now chat sender name media st).logs
        = st.logs ++ dbg
            ++ [("WARNING", "Received recc but no associated image found")] := by
  have htk1 : (webhook_cache_take st.cache (chat, sender) now).1 = none := by
    unfold webhook_cache_take
    split
    · rename_i e heq
      have hexp := hcache e heq
      rw [if_neg (by omega)]
    · rfl
  have hbranch : webhook_claim_branch dl enc rid pth now chat sender name media st
      = { st with
            cache := (webhook_cache_take st.cache (chat, sender) now).2.1,
            logs := (st.logs ++ (webhook_cache_take st.cache (chat, sender) now).2.2)
              ++ [("WARNING", "Received recc but no associated image found")] } := by
    unfold webhook_claim_branch
    simp only [hmedia, Bool.false_eq_true, if_false, htk1]
  rw [hbranch]
  exact ⟨rfl, rfl, rfl,
    ⟨(webhook_cache_take st.cache (chat, sender) now).2.2, rfl⟩⟩

theorem c8_claim_no_image_witness :
    Json.truthy .null = false
  ∧ (∀ e, dictGet cacheKeyBeq emptySt.cache ("grp@g.us", Json.null) = some e →
      CACHE_EXPIRATION_SECONDS < 0 - e.timestamp)
  ∧ ((webhook_claim_branch (fun _ => .ok []) (fun d => d) "r1" "img.enc" 0
        "grp@g.us" Json.null "bob" Json.null emptySt).receipts = emptySt.receipts
    ∧ (webhook_claim_branch (fun _ => .ok []) (fun d => d) "r1" "img.enc" 0
        "grp@g.us" Json.null "bob" Json.null emptySt).events = emptySt.events
    ∧ (webhook_claim_branch (fun _ => .ok []) (fun d => d) "r1" "img.enc" 0
        "grp@g.us" Json.null "bob" Json.null emptySt).files = emptySt.files
    ∧ ∃ dbg : List (String × String),
        (webhook_claim_branch (fun _ => .ok []) (fun d => d) "r1" "img.enc" 0
          "grp@g.us" Json.null "bob" Json.null emptySt).logs
          = emptySt.logs ++ dbg
              ++ [("WARNING", "Received recc but no associated image found")]) :=
  ⟨rfl, fun e he => by simp [dictGet, emptySt] at he,
   c8_claim_no_image (fun _ => .ok []) (fun d => d) "r1" "img.enc" 0
     "grp@g.us" Json.null "bob" Json.null emptySt rfl
     (fun e he => by simp [dictGet, emptySt] at he)⟩

/-- Claim C5, evaluated at the failing input: when every candidate text field
is flagged as base64, the source selects the first non-empty candidate in
priority order (here the longer `body`), not the shortest non-empty
candidate (here the strictly shorter `caption`) that its own inline comment
and the spec promise. -/
theorem c5_fallback_eval :
    jGet (_normalize_last_message_obj
        (.obj [("body", .str "/9j/abcdef"), ("caption", .str "/9j/x")])) "body"
      = .str "/9j/abcdef"
  ∧ ("/9j/x" : String).length < ("/9j/abcdef" : String).length :=
  ⟨rfl, by decide⟩

/-- Counterexample to claim C1 as stated: the extractor raises rather than
returning an empty list on malformed payloads — `payload.get` raises
`AttributeError` on the non-dict payload `None`, and the `unread_count`
branch raises `AttributeError` when a data item is not a dict. -/
theorem c1_counterexample :
    extract_messages_from_payload (fun _ => none) Json.null
      = .error .attributeError
  ∧ extract_messages_from_payload (fun _ => none)
      (.obj [("event", .obj [("event", .str "unread_count"),
        ("data", .arr [.num 5])])])
      = .error .attributeError :=
  ⟨rfl, rfl⟩

theorem pyIter_ok_of_iterableOk (d : Json) (h : iterableOk d = true) :
    ∃ xs, pyIter d = .ok xs := by
  cases d with
  | arr xs => exact ⟨xs, rfl⟩
  | str s => exact ⟨_, rfl⟩
  | obj kvs => exact ⟨_, rfl⟩
  | null => simp [iterableOk] at h
  | bool b => simp [iterableOk] at h
  | num n => simp [iterableOk] at h

theorem unreadLoop_ok (items : List Json) (h : items.all Json.isObj = true) :
    ∃ ms, unreadLoop items = .ok ms := by
  induction items with
  | nil => exact ⟨[], rfl⟩
  | cons it rest ih =>
      rw [List.all_cons, Bool.and_eq_true] at h
      obtain ⟨h1, h2⟩ := h
      obtain ⟨tail, htail⟩ := ih h2
      cases it with
      | obj ikvs =>
          simp only [unreadLoop, htail]
          by_cases ht : ((pyGet ikvs "lastMessage").pyOr
              ((pyGet ikvs "last_message").pyOr (pyGet ikvs "message"))).truthy = true
          · exact ⟨_, by rw [if_pos ht]⟩
          · exact ⟨tail, by rw [if_neg ht]⟩
      | null => simp [Json.isObj] at h1
      | bool b => simp [Json.isObj] at h1
      | num n => simp [Json.isObj] at h1
      | str s => simp [Json.isObj] at h1
      | arr xs => simp [Json.isObj] at h1

theorem extractResolved_ok (q : Json) (h : wellFormedPayload q = true) :
    ∃ ms, extractResolved q = .ok ms := by
  cases q with
  | null => simp [wellFormedPayload] at h
  | bool b => simp [wellFormedPayload] at h
  | num n => simp [wellFormedPayload] at h
  | str s => simp [wellFormedPayload] at h
  | arr xs => simp [wellFormedPayload] at h
  | obj kvs =>
      simp only [wellFormedPayload] at h
      simp only [extractResolved]
      by_cases h1 : (pyGet kvs "event").isStrEq "message" = true
      · rw [if_pos h1]
        split
        · exact ⟨_, rfl⟩
        · exact ⟨_, rfl⟩
      · rw [if_neg h1] at h ⊢
        by_cases h2 : (pyGet kvs "messages").isArr = true
        · rw [if_pos h2]
          exact ⟨_, rfl⟩
        · rw [if_neg h2] at h ⊢
          cases hev : pyGet kvs "event" with
          | obj ekvs =>
              simp only [hev] at h ⊢
              by_cases h3 : (pyGet ekvs "event").isStrEq "message_create" = true
              · rw [if_pos h3] at h ⊢
                obtain ⟨xs, hxs⟩ := pyIter_ok_of_iterableOk _ h
                simp only [hxs]
                exact ⟨_, rfl⟩
              · rw [if_neg h3] at h ⊢
                by_cases h4 : (pyGet ekvs "event").isStrEq "unread_count" = true
                · rw [if_pos h4] at h ⊢
                  cases hit : pyIter (pyGetD ekvs "data" (.arr [])) with
                  | error e =>
                      simp only [hit] at h
                      simp at h
                  | ok items =>
                      simp only [hit] at h ⊢
                      exact unreadLoop_ok items h
                · rw [if_neg h4] at h ⊢
                  exact ⟨_, rfl⟩
          | null =>
              simp only [hev]
              exact ⟨_, rfl⟩
          | bool b =>
              simp only [hev]
              exact ⟨_, rfl⟩
          | num n =>
              simp only [hev]
              exact ⟨_, rfl⟩
          | str t =>
              simp only [hev]
              exact ⟨_, rfl⟩
          | arr xs =>
              simp only [hev]
              exact ⟨_, rfl⟩

/-- Claim C1 as amended: `extract_messages_from_payload` returns a list of
normalized messages without raising whenever the payload — after the
`json.loads` step — is a dict whose nested-event `data`, if the nested event
type is `message_create` or `unread_count`, is iterable with dict items for
`unread_count` (the empty list when no message can be extracted); non-dict
payloads (`None`, booleans, numbers, lists, strings that fail to parse or
parse to non-dicts) raise `AttributeError`, and malformed nested `data`
raises `TypeError`/`AttributeError`. -/
theorem c1_extract_no_raise (parse : String → Option Json) (p : Json)
    (h : wellFormedPayload (resolvePayload parse p) = true) :
    ∃ ms, extract_messages_from_payload parse p = .ok ms :=
  extractResolved_ok (resolvePayload parse p) h

theorem c1_extract_no_raise_witness :
    wellFormedPayload (resolvePayload (fun _ => none)
        (.obj [("event", .str "message"),
          ("payload", .obj [("body", .str "recc bob")])])) = true
  ∧ ∃ ms, extract_messages_from_payload (fun _ => none)
      (.obj [("event", .str "message"),
        ("payload", .obj [("body", .str "recc bob")])]) = .ok ms :=
  ⟨rfl,
   c1_extract_no_raise (fun _ => none)
     (.obj [("event", .str "message"),
       ("payload", .obj [("body", .str "recc bob")])]) rfl⟩
